import Mathlib

/-!
Shallow embedding of the tenant-lifecycle core of the multi-tenant SaaS
backend (FastAPI + MongoDB): the name sanitizer, the tenant database
locator, the organization create / get / delete / rename route handlers,
and the offline cross-database migration tool.

Conventions used throughout:
* MongoDB collections are modelled as Lean lists in insertion order;
  `find_one` / `delete_one` / `update_one` with an equality filter act on the
  first matching document, and `insert_one` appends (enforcing the unique
  index that MongoDB maintains on `_id` within each collection).
* Strings are Lean `String`s; the sanitizer is defined character by
  character on `String.data`.
* Fallible handlers return `Except ApiError` together with the poststate.
-/

set_option autoImplicit false

/-! ## Characters: Python `str.lower`, regex `\s`, and the keep-set -/

/-- The set of characters matched by Python's regex `\s` (with `str`
patterns, i.e. Unicode whitespace): `\t \n \v \f \r`, space, the ASCII
separators 0x1c–0x1f, NEL, NBSP, and the Unicode space characters. -/
def isPySpace (c : Char) : Bool :=
  (0x09 ≤ c.toNat && c.toNat ≤ 0x0d) ||
  (0x1c ≤ c.toNat && c.toNat ≤ 0x1f) ||
  c.toNat == 0x20 || c.toNat == 0x85 || c.toNat == 0xa0 ||
  c.toNat == 0x1680 || (0x2000 ≤ c.toNat && c.toNat ≤ 0x200a) ||
  c.toNat == 0x2028 || c.toNat == 0x2029 || c.toNat == 0x202f ||
  c.toNat == 0x205f || c.toNat == 0x3000

/-- Python `str.lower`, restricted to its per-character ASCII action
(`'A'..'Z'` map to `'a'..'z'`); characters outside that range are kept.
The sanitizer's keep-set is ASCII-only, so none of the verified claims
depend on the behaviour of `lower` beyond ASCII. -/
def pyToLower (c : Char) : Char :=
  if 65 ≤ c.toNat ∧ c.toNat ≤ 90 then Char.ofNat (c.toNat + 32) else c

/-- The characters kept by the final substitution `[^a-z0-9_]+ → ""`:
lowercase ASCII letters, ASCII digits, and underscore. -/
def keepChar (c : Char) : Bool :=
  (97 ≤ c.toNat && c.toNat ≤ 122) || (48 ≤ c.toNat && c.toNat ≤ 57) ||
  c.toNat == 95

/-- Model of `re.sub(r'\s+', '_', ·)`: replace each maximal run of whitespace with a
single underscore.  The Boolean argument records whether the previous
character belonged to a whitespace run whose underscore was already
emitted. -/
def collapseWSAux : Bool → List Char → List Char
  | _, [] => []
  | inRun, c :: cs =>
    if isPySpace c then
      if inRun then collapseWSAux true cs else '_' :: collapseWSAux true cs
    else c :: collapseWSAux false cs

/-- Replace each maximal whitespace run with a single underscore. -/
def collapseWS (l : List Char) : List Char :=
  collapseWSAux false l

/-- The function `sanitize_org_name` from `app/routers/orgs.py` (lines 15–21):
lowercase, then `re.sub(r'\s+', '_', ·)`, then `re.sub(r'[^a-z0-9_]+', '', ·)`. -/
def sanitize_org_name (s : String) : String :=
  ⟨(collapseWS (s.data.map pyToLower)).filter keepChar⟩

/-- The function `sanitize_name` from `scripts/migrate_org_name.py` (lines 9–14); its body
is character-for-character the same as `sanitize_org_name`. -/
def sanitize_name (s : String) : String :=
  ⟨(collapseWS (s.data.map pyToLower)).filter keepChar⟩

/-- The spec's wording of whitespace collapsing, written independently of
`collapseWS`: a maximal run of whitespace (found with `dropWhile`) becomes
one underscore. -/
def collapseRunsSpec : List Char → List Char
  | [] => []
  | c :: cs =>
    if isPySpace c then '_' :: collapseRunsSpec (cs.dropWhile isPySpace)
    else c :: collapseRunsSpec cs
termination_by l => l.length
decreasing_by
  · simp only [List.length_cons]
    exact Nat.lt_succ_of_le (List.dropWhile_sublist isPySpace).length_le
  · simp

/-- The sanitizer exactly as the spec describes it: lower-case the input,
collapse each maximal whitespace run to a single underscore, then delete
every character that is not a lowercase ASCII letter, digit or underscore. -/
def sanitize_spec (s : String) : String :=
  ⟨(collapseRunsSpec (s.data.map pyToLower)).filter keepChar⟩

/-- Claim C4's relation, as stated: `n1` and `n2` differ only by letter case
or by whitespace — which whitespace characters appear, how many, and where —
i.e. after deleting every whitespace character and case-folding the rest,
the two strings agree. -/
def differOnlyByCaseOrWhitespace (n1 n2 : String) : Prop :=
  (n1.data.filter (fun c => !isPySpace c)).map pyToLower
    = (n2.data.filter (fun c => !isPySpace c)).map pyToLower

/-! ## The tenant store locator and the other db-name computations -/

/-- The locator `get_tenant_db` from `app/db.py` (lines 28–31): tenant databases are
prefixed with `org_`.  Only the name computation is modelled; obtaining a
handle for a name that was never written to is valid (lazy creation). -/
def get_tenant_db_name (org_name_lower : String) : String :=
  "org_" ++ org_name_lower

/-- The database name dropped by `delete_organization`
(`app/routers/orgs.py` line 130). -/
def delete_dropped_db_name (org_name_lower : String) : String :=
  "org_" ++ org_name_lower

/-- The name `old_db_name` computed by `migrate_org_name`
(`scripts/migrate_org_name.py` line 28). -/
def migrate_old_db_name (old_org_name : String) : String :=
  "org_" ++ sanitize_name old_org_name

/-- The name `new_db_name` computed by `migrate_org_name`
(`scripts/migrate_org_name.py` line 29). -/
def migrate_new_db_name (new_org_name : String) : String :=
  "org_" ++ sanitize_name new_org_name

/-! ## The master store: documents, collections, MongoDB primitives -/

/-- A MongoDB value as it occurs in the fields this model tracks (`_id` and
the `organization_id` reference): the BSON `null` or a string.  The route
handlers insert documents whose `_id` is explicitly `None` (pydantic's
`model_dump(by_alias=True)` keeps the aliased `id=None` default), so `null`
ids actually occur. -/
inductive MVal where
  | null : MVal
  | str : String → MVal
deriving DecidableEq, Repr

/-- Python `str(·)` on such a value: `str(None) = "None"`. -/
def pyStr : MVal → String
  | .null => "None"
  | .str s => s

/-- An `organizations` document (`OrganizationInDB`, `app/models.py` 5–10). -/
structure OrgDoc where
  _id : MVal
  organization_name : String
  organization_name_lower : String
  admin_email : String
  created_at : Nat
deriving DecidableEq, Repr

/-- An `admins` document (`AdminInDB`, `app/models.py` 12–17).  The
application writes `organization_id` as a string, but `delete_organization`
queries it with the possibly-`null` parsed `_id`, so the field is kept as a
general value. -/
structure AdminDoc where
  _id : MVal
  email : String
  hashed_password : String
  organization_id : MVal
  created_at : Nat
deriving DecidableEq, Repr

/-- A `tenant_metadata` document (`TenantMetadataInDB`, `app/models.py` 19–24). -/
structure TenantMetaDoc where
  _id : MVal
  organization_id : String
  organization_name : String
  created_at : Nat
deriving DecidableEq, Repr

/-- Model of `find_one` with an equality-style filter: the first matching document in
insertion order, if any. -/
def findOne {α : Type} (p : α → Bool) (l : List α) : Option α :=
  l.find? p

/-- Model of `delete_one`: remove the first matching document, if any. -/
def deleteOne {α : Type} (p : α → Bool) : List α → List α
  | [] => []
  | x :: xs => if p x then xs else x :: deleteOne p xs

/-- Model of `update_one`: apply the `$set` update `f` to the first matching
document, if any. -/
def updateOne {α : Type} (p : α → Bool) (f : α → α) : List α → List α
  | [] => []
  | x :: xs => if p x then f x :: xs else x :: updateOne p f xs

/-- Model of `insert_one` of a document carrying an explicit `_id`: MongoDB enforces
the unique index on `_id`, so the insert fails (`DuplicateKeyError`) when a
document with the same `_id` is already present; otherwise it appends. -/
def insertOne {α : Type} (idOf : α → MVal) (l : List α) (doc : α) : Option (List α) :=
  if l.any (fun x => idOf x == idOf doc) then none else some (l ++ [doc])

/-- The master database plus the set of existing tenant databases.  A tenant
database is modelled by its name and its `tenant_metadata` collection (the
only tenant collection the lifecycle routes touch); it exists exactly when it
appears in the list. -/
structure MasterState where
  organizations : List OrgDoc
  admins : List AdminDoc
  tenant_dbs : List (String × List TenantMetaDoc)
deriving DecidableEq, Repr

/-- The HTTP error outcomes of the lifecycle routes. -/
inductive ApiError where
  | conflict : ApiError
  | notFound : ApiError
  | forbidden : ApiError
  | serverError : ApiError
deriving DecidableEq, Repr

deriving instance DecidableEq for Except

/-- The success payload (`OrganizationResponse`, `app/schemas.py` 9–12). -/
structure OrgResponse where
  organization_name : String
  admin_email : String
  created_at : Nat
deriving DecidableEq, Repr

/-- The request body `OrganizationCreate` (`app/schemas.py` 4–7). -/
structure OrganizationCreate where
  organization_name : String
  email : String
  password : String
deriving DecidableEq, Repr

/-- The request-body validation performed by pydantic on
`OrganizationCreate`: display name 3–50 characters, password at least 8;
`EmailStr` is abbreviated to containing an `@` (full RFC validation is the
excluded parsing layer's job and no claim depends on it). -/
def valid_org_create (o : OrganizationCreate) : Bool :=
  3 ≤ o.organization_name.length && o.organization_name.length ≤ 50 &&
  8 ≤ o.password.length && o.email.data.any (fun c => c == '@')

/-- The delegated password-hashing capability (bcrypt via passlib in
`app/auth.py` 10–11), which the spec treats as an external collaborator; no
claim depends on its values, only on the hash being stored. -/
def hash_password (password : String) : String :=
  "bcrypt$" ++ password

/-- Insert a tenant-metadata document into tenant database `name`, creating
the database on first write (MongoDB's lazy creation); the collection
enforces the `_id` unique index like any other. -/
def tenantMetaInsert (dbs : List (String × List TenantMetaDoc)) (name : String)
    (doc : TenantMetaDoc) : Option (List (String × List TenantMetaDoc)) :=
  match dbs with
  | [] => some [(name, [doc])]
  | d :: ds =>
    if d.1 == name then
      match insertOne TenantMetaDoc._id d.2 doc with
      | none => none
      | some coll => some ((name, coll) :: ds)
    else
      match tenantMetaInsert ds name doc with
      | none => none
      | some ds' => some (d :: ds')

/-- Model of `client.drop_database(name)`: the database, if present, ceases to
exist; dropping an absent database is a no-op. -/
def drop_database (dbs : List (String × List TenantMetaDoc)) (name : String) :
    List (String × List TenantMetaDoc) :=
  dbs.filter (fun d => d.1 != name)

/-- The write operations `delete_organization` issues, in issue order. -/
inductive StoreEvent where
  | deleteOrgRecord : MVal → StoreEvent
  | deleteAdminRecords : MVal → StoreEvent
  | dropTenantDb : String → StoreEvent
deriving DecidableEq, Repr

/-! ## The lifecycle route handlers -/

/-- The handler `delete_organization` (`app/routers/orgs.py` 111–132): canonicalize and
look up, 404 if absent, 403 if the caller's token email is not the recorded
administrator email; otherwise `delete_one` the organization by `_id`,
`delete_one` the admin by `organization_id`, then drop `org_<canonical>`.
Returns the poststate, the trace of issued write operations in order, and
the HTTP outcome. -/
def delete_organization (st : MasterState) (organization_name admin_email : String) :
    MasterState × List StoreEvent × Except ApiError Unit :=
  let org_name_lower := sanitize_org_name organization_name
  match findOne (fun o => o.organization_name_lower == org_name_lower) st.organizations with
  | none => (st, [], .error .notFound)
  | some org_in_db =>
    if org_in_db.admin_email != admin_email then (st, [], .error .forbidden)
    else
      ({ organizations := deleteOne (fun o => o._id == org_in_db._id) st.organizations,
         admins := deleteOne (fun a => a.organization_id == org_in_db._id) st.admins,
         tenant_dbs := drop_database st.tenant_dbs ("org_" ++ org_name_lower) },
       [.deleteOrgRecord org_in_db._id, .deleteAdminRecords org_in_db._id,
        .dropTenantDb ("org_" ++ org_name_lower)],
       .ok ())

/-- The rename request body (`OrganizationUpdatePayload`, orgs.py 135–139):
`OrganizationCreate`'s fields plus the new display name. -/
structure OrganizationUpdatePayload where
  organization_name : String
  email : String
  password : String
  new_name : String
deriving DecidableEq, Repr

/-- The `$set` document of the rename (orgs.py line 171): only
`organization_name` and `organization_name_lower` are written. -/
def rename_set (new_name new_lower : String) (o : OrgDoc) : OrgDoc :=
  { o with organization_name := new_name, organization_name_lower := new_lower }

/-- The handler `update_organization` (orgs.py 141–178): canonicalize both names; 409 if
any organization already holds the new canonical name (checked first, against
the whole collection); 404 if the old canonical name matches nothing; 403 on
an email mismatch; otherwise `update_one` `$set`s the display and canonical
name of the first organization with the fetched document's `_id`. -/
def update_organization (st : MasterState) (payload : OrganizationUpdatePayload)
    (admin_email : String) : MasterState × Except ApiError OrgResponse :=
  let old_lower := sanitize_org_name payload.organization_name
  let new_lower := sanitize_org_name payload.new_name
  if (findOne (fun o => o.organization_name_lower == new_lower) st.organizations).isSome then
    (st, .error .conflict)
  else
    match findOne (fun o => o.organization_name_lower == old_lower) st.organizations with
    | none => (st, .error .notFound)
    | some org_in_db =>
      if org_in_db.admin_email != admin_email then (st, .error .forbidden)
      else
        ({ st with organizations :=
            (updateOne (fun o => o._id == org_in_db._id)
              (rename_set payload.new_name new_lower)
              st.organizations) },
         .ok { organization_name := payload.new_name,
               admin_email := org_in_db.admin_email,
               created_at := org_in_db.created_at })

/-- The `except` rollback block of `create_organization` (orgs.py 84–91), in
the case where the local `org_id` was bound (the organization insert
succeeded): `delete_one({"_id": org_id})` — note `org_id` is the
*stringified* inserted id — then `delete_one({"email": org_create.email})`
on `admins`.  The tenant database, if created, is deliberately not dropped
(source comment, lines 88–90). -/
def create_rollback (st : MasterState) (email org_id : String) : MasterState :=
  { st with
    organizations := deleteOne (fun o => o._id == MVal.str org_id) st.organizations,
    admins := deleteOne (fun a => a.email == email) st.admins }

/-- The handler `create_organization` (orgs.py 36–91), with `now` the timestamp supplied
by the pydantic `default_factory`.  The inserted documents carry the
explicit `_id = null` that `model_dump(by_alias=True)` produces, so each
insert can raise `DuplicateKeyError` on the `_id` unique index; a failure
inside the `try` block runs the rollback and returns 500.  If the very first
insert fails, the local `org_id` is unbound in the `except` block, whose
first statement then raises `NameError`: no compensating delete runs at all
(the state is returned unchanged) and the request still surfaces as a 500. -/
def create_organization (st : MasterState) (oc : OrganizationCreate) (now : Nat) :
    MasterState × Except ApiError OrgResponse :=
  let org_name_lower := sanitize_org_name oc.organization_name
  if (findOne (fun o => o.organization_name_lower == org_name_lower) st.organizations).isSome then
    (st, .error .conflict)
  else
    let org_in_db : OrgDoc :=
      { _id := .null, organization_name := oc.organization_name,
        organization_name_lower := org_name_lower, admin_email := oc.email,
        created_at := now }
    match insertOne OrgDoc._id st.organizations org_in_db with
    | none => (st, .error .serverError)
    | some orgs1 =>
      let org_id := pyStr MVal.null
      let admin_in_db : AdminDoc :=
        { _id := .null, email := oc.email, hashed_password := hash_password oc.password,
          organization_id := .str org_id, created_at := now }
      match insertOne AdminDoc._id st.admins admin_in_db with
      | none =>
        (create_rollback { st with organizations := orgs1 } oc.email org_id,
         .error .serverError)
      | some admins1 =>
        let meta : TenantMetaDoc :=
          { _id := .null, organization_id := org_id,
            organization_name := oc.organization_name, created_at := now }
        match tenantMetaInsert st.tenant_dbs (get_tenant_db_name org_name_lower) meta with
        | none =>
          (create_rollback { st with organizations := orgs1, admins := admins1 }
            oc.email org_id, .error .serverError)
        | some tdbs1 =>
          ({ organizations := orgs1, admins := admins1, tenant_dbs := tdbs1 },
           .ok { organization_name := oc.organization_name, admin_email := oc.email,
                 created_at := now })

/-! ## The cross-database migrator -/

/-- A document in a migrated tenant collection: its `_id` plus the rest of
its fields, opaque to the migrator (documents are copied whole). -/
structure MDoc where
  _id : MVal
  body : String
deriving DecidableEq, Repr

/-- A tenant database as the migrator sees it: named collections of
documents.  A collection exists exactly when it has been written to. -/
abbrev MigDb := List (String × List MDoc)

/-- The server's databases by name; `list_database_names` is the name
list.  A database exists exactly when it holds data. -/
abbrev MigCluster := List (String × MigDb)

/-- Read an entry of an association list, with a default for absent names
(a MongoDB database or collection handle reads as empty before its first
write). -/
def assocFind {β : Type} (l : List (String × β)) (name : String) (dflt : β) : β :=
  match l.find? (fun e => e.1 == name) with
  | some e => e.2
  | none => dflt

/-- Write an entry of an association list: replace the first entry carrying
the given name, or append a new one (MongoDB creates databases and
collections lazily, on first write). -/
def assocWrite {β : Type} : List (String × β) → String → β → List (String × β)
  | [], name, v => [(name, v)]
  | e :: es, name, v =>
    if e.1 == name then (name, v) :: es else e :: assocWrite es name v

/-- The per-collection copy loop of `migrate_org_name`
(`scripts/migrate_org_name.py` 56–79): stream the source documents in
order; skip a document whose `_id` already exists in the destination
collection (checked against the destination as flushed so far); otherwise
buffer it, flushing the buffer as one `insert_many` whenever it reaches
`batch_size`, and once more at the end if nonempty.  Arguments: remaining
source documents, destination collection contents, current buffer, copied
and skipped counters; returns the final destination contents and the two
counters. -/
def copy_documents (batch_size : Nat) :
    List MDoc → List MDoc → List MDoc → Nat → Nat → List MDoc × Nat × Nat
  | [], dst, batch, copied, skipped =>
    if batch.isEmpty then (dst, copied, skipped)
    else (dst ++ batch, copied + batch.length, skipped)
  | d :: rest, dst, batch, copied, skipped =>
    if dst.any (fun x => x._id == d._id) then
      copy_documents batch_size rest dst batch copied (skipped + 1)
    else
      if batch_size ≤ (batch ++ [d]).length then
        copy_documents batch_size rest (dst ++ (batch ++ [d])) []
          (copied + (batch ++ [d]).length) skipped
      else
        copy_documents batch_size rest dst (batch ++ [d]) copied skipped

/-- The `for collection_name in old_collections` loop (lines 51–100): copy
each source collection into the equally named destination collection.  A
collection whose copy performed no insert is left unwritten (no insert, no
lazy creation); otherwise the destination collection now holds the copy
loop's result. -/
def migrate_collections (batch_size : Nat) (old_db : MigDb) :
    List String → MigDb → Nat → MigDb × Nat
  | [], new_db, copied => (new_db, copied)
  | cname :: rest, new_db, copied =>
    let res := copy_documents batch_size (assocFind old_db cname [])
      (assocFind new_db cname []) [] 0 0
    let new_db' := if res.2.1 == 0 then new_db else assocWrite new_db cname res.1
    migrate_collections batch_size old_db rest new_db' (copied + res.2.1)

/-- The tool `migrate_org_name` (`scripts/migrate_org_name.py` 16–114): sanitize both
names and return doing nothing when they coincide; return doing nothing when
the source database does not exist; otherwise copy every collection of
`org_<old>` into `org_<new>`.  Returns the final cluster and the total
number of copied documents.  The count and sample-hash verifications
(lines 83–100) only print warnings and change no state; a run that performed
no insert leaves the cluster untouched (databases are created only on
write). -/
def migrate_org_name (cl : MigCluster) (old_org_name new_org_name : String)
    (batch_size : Nat) : MigCluster × Nat :=
  let old_s := sanitize_name old_org_name
  let new_s := sanitize_name new_org_name
  if old_s == new_s then (cl, 0)
  else
    let old_db_name := "org_" ++ old_s
    let new_db_name := "org_" ++ new_s
    if (cl.find? (fun d => d.1 == old_db_name)).isNone then (cl, 0)
    else
      let old_db := assocFind cl old_db_name []
      let new_db := assocFind cl new_db_name []
      let res := migrate_collections batch_size old_db (old_db.map (fun c => c.1)) new_db 0
      if res.2 == 0 then (cl, 0) else (assocWrite cl new_db_name res.1, res.2)

/-! ## Concrete fixtures used by witnesses and counterexamples -/

/-- Fixture for the C6 witness: two organizations with distinct ids, the
second organization's administrator, and the first organization's tenant
database. -/
def c6_state : MasterState :=
  { organizations :=
      [{ _id := .str "a", organization_name := "Acme Corp",
         organization_name_lower := "acme_corp", admin_email := "boss@acme.com",
         created_at := 0 },
       { _id := .str "b", organization_name := "Beta Corp",
         organization_name_lower := "beta_corp", admin_email := "beta@beta.com",
         created_at := 1 }],
    admins := [{ _id := .str "ad", email := "beta@beta.com", hashed_password := "h",
                 organization_id := .str "b", created_at := 1 }],
    tenant_dbs := [("org_acme_corp",
      [{ _id := .null, organization_id := "None", organization_name := "Acme Corp",
         created_at := 0 }])] }

/-- Fixture for the C6 witness: rename `Beta Corp` to `Beta Inc`. -/
def c6_payload : OrganizationUpdatePayload :=
  { organization_name := "Beta Corp", email := "beta@beta.com",
    password := "password123", new_name := "Beta Inc" }

/-- Fixture for the C5 counterexample: one organization whose id *two*
administrator records reference. -/
def c5_state : MasterState :=
  { organizations :=
      [{ _id := .str "o1", organization_name := "Acme Corp",
         organization_name_lower := "acme_corp", admin_email := "boss@acme.com",
         created_at := 0 }],
    admins := [{ _id := .str "ad1", email := "x@acme.com", hashed_password := "h1",
                 organization_id := .str "o1", created_at := 0 },
               { _id := .str "ad2", email := "y@acme.com", hashed_password := "h2",
                 organization_id := .str "o1", created_at := 0 }],
    tenant_dbs := [("org_acme_corp", [])] }

/-- The second administrator record of `c5_state`. -/
def c5_second_admin : AdminDoc :=
  { _id := .str "ad2", email := "y@acme.com", hashed_password := "h2",
    organization_id := .str "o1", created_at := 0 }

/-- Fixture for the C5 witness: one organization, its single administrator,
its tenant database, and an unrelated tenant database. -/
def c5w_state : MasterState :=
  { organizations :=
      [{ _id := .str "o1", organization_name := "Acme Corp",
         organization_name_lower := "acme_corp", admin_email := "boss@acme.com",
         created_at := 0 }],
    admins := [{ _id := .str "ad1", email := "boss@acme.com", hashed_password := "h",
                 organization_id := .str "o1", created_at := 0 }],
    tenant_dbs := [("org_acme_corp", []), ("org_other", [])] }

/-- The organization record of `c5w_state`. -/
def c5w_org : OrgDoc :=
  { _id := .str "o1", organization_name := "Acme Corp",
    organization_name_lower := "acme_corp", admin_email := "boss@acme.com",
    created_at := 0 }

/-- Fixture for C8: an existing organization with a non-null id whose
administrator's email the failing Create re-uses; the `admins` collection
already holds a document with `_id = null`, so this Create's administrator
insert hits the `_id` unique index. -/
def c8_state : MasterState :=
  { organizations :=
      [{ _id := .str "a1", organization_name := "Acme Corp",
         organization_name_lower := "acme_corp", admin_email := "shared@example.com",
         created_at := 0 }],
    admins := [{ _id := .null, email := "shared@example.com", hashed_password := "h",
                 organization_id := .str "a1", created_at := 0 }],
    tenant_dbs := [] }

/-- The pre-existing administrator record of `c8_state`: it belongs to the
organization `"a1"`, not to the organization the failing Create writes. -/
def c8_other_admin : AdminDoc :=
  { _id := .null, email := "shared@example.com", hashed_password := "h",
    organization_id := .str "a1", created_at := 0 }

/-- Fixture for C8: the Create request that fails after its first directory
write; its email coincides with `c8_other_admin`'s. -/
def c8_request : OrganizationCreate :=
  { organization_name := "Beta LLC", email := "shared@example.com",
    password := "password123" }

/-- Fixture for C10: the first, successful Create request. -/
def c10_first_request : OrganizationCreate :=
  { organization_name := "Acme Corp", email := "boss@acme.com",
    password := "password123" }

/-- Fixture for C10: a later, unrelated Create request with a fresh,
distinct, non-empty canonical name, passing input validation. -/
def c10_second_request : OrganizationCreate :=
  { organization_name := "Beta LLC", email := "beta@beta.com",
    password := "password123" }

/-- Fixture for C10: the directory state reached by running the first
Create on an empty store. -/
def c10_state_after_first : MasterState :=
  (create_organization { organizations := [], admins := [], tenant_dbs := [] }
    c10_first_request 0).1

/-! ## Sanitizer lemmas -/

theorem collapseWSAux_true_eq_dropWhile (l : List Char) :
    collapseWSAux true l = collapseWSAux false (l.dropWhile isPySpace) := by
  induction l with
  | nil => rfl
  | cons c cs ih =>
    by_cases h : isPySpace c
    · simp [collapseWSAux, h, List.dropWhile, ih]
    · simp [collapseWSAux, h, List.dropWhile]

set_option maxHeartbeats 1000000 in
theorem collapseWS_eq_spec_aux (n : Nat) :
    ∀ l : List Char, l.length ≤ n → collapseWS l = collapseRunsSpec l := by
  induction n with
  | zero =>
    intro l hl
    match l with
    | [] => rw [collapseRunsSpec]; rfl
  | succ n ih =>
    intro l hl
    match l with
    | [] => rw [collapseRunsSpec]; rfl
    | c :: cs =>
      rw [collapseRunsSpec]
      by_cases h : isPySpace c
      · simp only [h, if_true]
        simp only [collapseWS, collapseWSAux, h, if_true]
        rw [collapseWSAux_true_eq_dropWhile]
        have hle : (cs.dropWhile isPySpace).length ≤ n := by
          have h1 : (cs.dropWhile isPySpace).length ≤ cs.length :=
            (List.dropWhile_sublist isPySpace).length_le
          have h2 : cs.length ≤ n := Nat.le_of_succ_le_succ hl
          exact Nat.le_trans h1 h2
        exact congrArg (List.cons '_') (ih _ hle)
      · simp only [h, if_false]
        simp only [collapseWS, collapseWSAux, h, if_false]
        exact congrArg (List.cons c) (ih _ (Nat.le_of_succ_le_succ hl))

theorem collapseWS_eq_spec (l : List Char) : collapseWS l = collapseRunsSpec l :=
  collapseWS_eq_spec_aux l.length l (Nat.le_refl _)

theorem pyToLower_of_keep {c : Char} (h : keepChar c = true) : pyToLower c = c := by
  simp only [keepChar, Bool.or_eq_true, Bool.and_eq_true, decide_eq_true_eq,
    beq_iff_eq] at h
  simp only [pyToLower, ite_eq_right_iff]
  intro hc
  omega

theorem not_space_of_keep {c : Char} (h : keepChar c = true) : isPySpace c = false := by
  simp only [keepChar, Bool.or_eq_true, Bool.and_eq_true, decide_eq_true_eq,
    beq_iff_eq] at h
  simp only [isPySpace, Bool.or_eq_false_iff, Bool.and_eq_false_iff,
    decide_eq_false_iff_not, beq_eq_false_iff_ne, ne_eq]
  omega

theorem map_pyToLower_of_keep (l : List Char) (h : ∀ c ∈ l, keepChar c = true) :
    l.map pyToLower = l := by
  induction l with
  | nil => rfl
  | cons c cs ih =>
    simp only [List.map_cons, pyToLower_of_keep (h c (by simp)), List.cons.injEq, true_and]
    exact ih fun d hd => h d (List.mem_cons_of_mem _ hd)

theorem collapseWS_of_no_space (l : List Char) (h : ∀ c ∈ l, isPySpace c = false) :
    collapseWS l = l := by
  induction l with
  | nil => rfl
  | cons c cs ih =>
    simp only [collapseWS, collapseWSAux, h c (by simp), Bool.false_eq_true, if_false,
      List.cons.injEq, true_and]
    exact ih fun d hd => h d (List.mem_cons_of_mem _ hd)

theorem sanitize_chars_keep (s : String) :
    ∀ c ∈ (sanitize_org_name s).data, keepChar c = true := by
  intro c hc
  exact List.of_mem_filter hc

theorem sanitize_org_name_idem (s : String) :
    sanitize_org_name (sanitize_org_name s) = sanitize_org_name s := by
  have hkeep := sanitize_chars_keep s
  show (⟨((sanitize_org_name s).data.map pyToLower |> collapseWS).filter keepChar⟩ : String)
      = sanitize_org_name s
  rw [map_pyToLower_of_keep _ hkeep,
    collapseWS_of_no_space _ (fun c hc => not_space_of_keep (hkeep c hc)),
    List.filter_eq_self.mpr hkeep]

/-! ## Claim theorems: the sanitizer (C2, C3, C4) -/

/-- Claim C2: for every input string `n`, `sanitize(n)` equals the result of
lower-casing `n`, replacing each maximal run of whitespace with a single
underscore, then deleting every character that is not a lowercase ASCII
letter, digit, or underscore; in particular on the spec's three examples. -/
theorem c2_sanitize_matches_spec_pipeline :
    (∀ n : String, sanitize_org_name n = sanitize_spec n)
    ∧ sanitize_org_name "Acme   Corp!" = "acme_corp"
    ∧ sanitize_org_name "My.Org" = "myorg"
    ∧ sanitize_org_name "UNDER_score" = "under_score" := by
  refine ⟨fun n => ?_, by decide, by decide, by decide⟩
  simp only [sanitize_org_name, sanitize_spec, collapseWS_eq_spec]

/-- Claim C3: `sanitize` is idempotent, both for the live service's
`sanitize_org_name` and for the migration tool's `sanitize_name`. -/
theorem c3_sanitize_idempotent (n : String) :
    sanitize_org_name (sanitize_org_name n) = sanitize_org_name n
    ∧ sanitize_name (sanitize_name n) = sanitize_name n :=
  ⟨sanitize_org_name_idem n, sanitize_org_name_idem n⟩

/-- Claim C4 is false as stated: `"a b"` and `"ab"` differ only by
whitespace (one interior space versus none), yet the sanitizer keeps an
underscore marking the interior run: `"a_b" ≠ "ab"`. -/
theorem c4_counterexample :
    differOnlyByCaseOrWhitespace "a b" "ab"
    ∧ sanitize_org_name "a b" ≠ sanitize_org_name "ab" :=
  ⟨by unfold differOnlyByCaseOrWhitespace; decide, by decide⟩

/-- Claim C4 (amended): if `n1` and `n2` agree after lower-casing and after
collapsing each maximal whitespace run to a single underscore — that is,
they differ only by letter case and by which (and how many, at least one)
whitespace characters make up each run, with the runs in the same positions
relative to the non-whitespace text — then they sanitize equally. -/
theorem c4_amended_case_ws_style_collapse (n1 n2 : String)
    (h : collapseWS (n1.data.map pyToLower) = collapseWS (n2.data.map pyToLower)) :
    sanitize_org_name n1 = sanitize_org_name n2 := by
  simp only [sanitize_org_name, h]

theorem c4_amended_case_ws_style_collapse_witness :
    collapseWS (("Acme Corp").data.map pyToLower)
      = collapseWS (("ACME  \t CORP").data.map pyToLower)
    ∧ sanitize_org_name "Acme Corp" = sanitize_org_name "ACME  \t CORP" :=
  ⟨by decide, c4_amended_case_ws_style_collapse "Acme Corp" "ACME  \t CORP" (by decide)⟩

/-! ## Claim theorems: the tenant store locator (C1) -/

/-- Claim C1 is false as stated: for the canonical name `"acme"` the
locator yields `"org_acme"`, not `"tenant_acme"` — the literal prefix the
code prepends is `org_`, not `tenant_`. -/
theorem c1_counterexample : get_tenant_db_name "acme" ≠ "tenant_" ++ "acme" := by
  decide

/-- Claim C1 (amended): the Tenant Store Locator maps a canonical name `c`
to `"org_" ++ c`, and every operation that touches a tenant namespace —
Create's metadata write (`get_tenant_db`), Delete's namespace drop, and the
Migrator's source and destination — uses this same mapping. -/
theorem c1_amended_org_prefix_everywhere (c : String) :
    get_tenant_db_name c = "org_" ++ c
    ∧ delete_dropped_db_name c = get_tenant_db_name c
    ∧ (∀ n, migrate_old_db_name n = get_tenant_db_name (sanitize_name n))
    ∧ (∀ n, migrate_new_db_name n = get_tenant_db_name (sanitize_name n)) :=
  ⟨rfl, rfl, fun _ => rfl, fun _ => rfl⟩

/-! ## Claim theorems: rename conflict detection (C7) -/

/-- Claim C7 is false as stated: in a state holding exactly one
organization, canonically `"acme_corp"`, owned by `boss@acme.com`, renaming
it to `"ACME CORP"` — whose canonical form is that organization's own
current canonical name, belonging to no *different* organization — fails
with Conflict, because the availability check matches the organization
itself. -/
theorem c7_counterexample :
    (update_organization
      { organizations := [{ _id := .str "o1", organization_name := "Acme Corp",
                            organization_name_lower := "acme_corp",
                            admin_email := "boss@acme.com", created_at := 0 }],
        admins := [], tenant_dbs := [] }
      { organization_name := "Acme Corp", email := "boss@acme.com",
        password := "password123", new_name := "ACME CORP" }
      "boss@acme.com").2 = Except.error ApiError.conflict
    ∧ sanitize_org_name "ACME CORP" = "acme_corp" := by
  constructor
  · decide
  · decide

/-- Claim C7 (amended): Rename fails with Conflict exactly when the new
display name's canonical form already belongs to *some* organization
record — including the organization being renamed itself, so renaming an
organization to a display name canonically equal to its own current name
also fails with Conflict. -/
theorem c7_amended_conflict_iff_new_canonical_taken (st : MasterState)
    (p : OrganizationUpdatePayload) (admin_email : String) :
    (update_organization st p admin_email).2 = Except.error ApiError.conflict
    ↔ ∃ o ∈ st.organizations,
        o.organization_name_lower = sanitize_org_name p.new_name := by
  rcases hfind : List.find?
      (fun o => o.organization_name_lower == sanitize_org_name p.new_name)
      st.organizations with _ | org
  · have hnone : ¬ ∃ o ∈ st.organizations,
        o.organization_name_lower = sanitize_org_name p.new_name := by
      intro ⟨o, ho, heq⟩
      have := List.find?_eq_none.mp hfind o ho
      simp [heq] at this
    simp only [update_organization, findOne, hfind, Option.isSome_none,
      Bool.false_eq_true, if_false]
    rcases hold : List.find?
        (fun o => o.organization_name_lower == sanitize_org_name p.organization_name)
        st.organizations with _ | org2
    · simp only [hold]
      exact iff_of_false (by simp) hnone
    · simp only [hold]
      refine iff_of_false ?_ hnone
      split <;> simp
  · have hmem := List.mem_of_find?_eq_some hfind
    have hp := List.find?_some hfind
    simp only [beq_iff_eq] at hp
    simp only [update_organization, findOne, hfind, Option.isSome_some, if_true]
    exact iff_of_true trivial ⟨org, hmem, hp⟩

/-! ## Claim theorems: rename frame (C6) -/

theorem updateOne_append {α : Type} (p : α → Bool) (f : α → α) (l1 : List α) (x : α)
    (l2 : List α) (h1 : ∀ y ∈ l1, p y = false) (hx : p x = true) :
    updateOne p f (l1 ++ x :: l2) = l1 ++ f x :: l2 := by
  induction l1 with
  | nil => simp [updateOne, hx]
  | cons a l1 ih =>
    simp only [List.cons_append, updateOne, h1 a (List.mem_cons_self a l1),
      Bool.false_eq_true, if_false, List.cons.injEq, true_and]
    exact ih fun y hy => h1 y (List.mem_cons_of_mem a hy)

theorem nodup_key_not_before {α β : Type} [DecidableEq β] (key : α → β)
    (l1 : List α) (x : α) (l2 : List α)
    (h : ((l1 ++ x :: l2).map key).Nodup) :
    ∀ y ∈ l1, (key y == key x) = false := by
  intro y hy
  have hmap : (l1.map key ++ (x :: l2).map key).Nodup := by simpa using h
  have hdisj := (List.nodup_append.mp hmap).2.2
  have hyk : key y ∈ l1.map key := List.mem_map_of_mem key hy
  have hxk : key x ∈ (x :: l2).map key := by simp
  have hne : key y ≠ key x := fun he => hdisj hyk (he ▸ hxk)
  simpa using hne

/-- Claim C6: a successful Rename modifies only the renamed organization's
directory record, and within it only the display name and canonical name
fields; its `_id`, administrator email, and creation timestamp, every other
directory record (organizations before and after it, and all admins), and
every tenant namespace are unchanged.  The `Nodup` hypothesis is MongoDB's
`_id` unique index on the `organizations` collection. -/
theorem c6_rename_frame (st : MasterState) (p : OrganizationUpdatePayload)
    (admin_email : String) (r : OrgResponse)
    (hids : (st.organizations.map OrgDoc._id).Nodup)
    (hok : (update_organization st p admin_email).2 = Except.ok r) :
    (update_organization st p admin_email).1.admins = st.admins
    ∧ (update_organization st p admin_email).1.tenant_dbs = st.tenant_dbs
    ∧ ∃ l1 org l2,
        st.organizations = l1 ++ org :: l2
        ∧ (update_organization st p admin_email).1.organizations
          = l1 ++ rename_set p.new_name (sanitize_org_name p.new_name) org :: l2
        ∧ (rename_set p.new_name (sanitize_org_name p.new_name) org)._id = org._id
        ∧ (rename_set p.new_name (sanitize_org_name p.new_name) org).admin_email
          = org.admin_email
        ∧ (rename_set p.new_name (sanitize_org_name p.new_name) org).created_at
          = org.created_at := by
  rcases hnew : List.find?
      (fun o => o.organization_name_lower == sanitize_org_name p.new_name)
      st.organizations with _ | o
  · simp only [update_organization, findOne, hnew, Option.isSome_none,
      Bool.false_eq_true, if_false] at hok ⊢
    rcases hold : List.find?
        (fun o => o.organization_name_lower == sanitize_org_name p.organization_name)
        st.organizations with _ | org
    · rw [hold] at hok
      simp at hok
    · simp only [hold] at hok ⊢
      by_cases hmail : (org.admin_email != admin_email) = true
      · rw [if_pos hmail] at hok
        simp at hok
      · rw [if_neg hmail] at hok ⊢
        have hmem := List.mem_of_find?_eq_some hold
        obtain ⟨l1, l2, hdecomp⟩ := List.append_of_mem hmem
        have hbefore : ∀ y ∈ l1, (y._id == org._id) = false :=
          nodup_key_not_before OrgDoc._id l1 org l2 (by rw [← hdecomp]; exact hids)
        refine ⟨rfl, rfl, l1, org, l2, hdecomp, ?_, rfl, rfl, rfl⟩
        show updateOne (fun o => o._id == org._id)
            (rename_set p.new_name (sanitize_org_name p.new_name))
            st.organizations = _
        rw [hdecomp, updateOne_append _ _ l1 org l2 hbefore (by simp)]
  · simp only [update_organization, findOne, hnew, Option.isSome_some, if_true] at hok
    simp at hok

theorem c6_rename_frame_witness :
    (c6_state.organizations.map OrgDoc._id).Nodup
    ∧ ((update_organization c6_state c6_payload "beta@beta.com").2
        = Except.ok { organization_name := "Beta Inc", admin_email := "beta@beta.com",
                      created_at := 1 })
    ∧ ((update_organization c6_state c6_payload "beta@beta.com").1.admins
        = c6_state.admins
      ∧ (update_organization c6_state c6_payload "beta@beta.com").1.tenant_dbs
        = c6_state.tenant_dbs
      ∧ ∃ l1 org l2,
          c6_state.organizations = l1 ++ org :: l2
          ∧ (update_organization c6_state c6_payload "beta@beta.com").1.organizations
            = l1 ++ rename_set c6_payload.new_name
                (sanitize_org_name c6_payload.new_name) org :: l2
          ∧ (rename_set c6_payload.new_name
              (sanitize_org_name c6_payload.new_name) org)._id = org._id
          ∧ (rename_set c6_payload.new_name
              (sanitize_org_name c6_payload.new_name) org).admin_email = org.admin_email
          ∧ (rename_set c6_payload.new_name
              (sanitize_org_name c6_payload.new_name) org).created_at = org.created_at) :=
  ⟨by decide, by decide,
    c6_rename_frame c6_state c6_payload "beta@beta.com"
      { organization_name := "Beta Inc", admin_email := "beta@beta.com", created_at := 1 }
      (by decide) (by decide)⟩

/-! ## Claim theorems: delete (C5) -/

theorem deleteOne_eq_filter_of_countP_le_one {α : Type} (p : α → Bool) (l : List α)
    (h : l.countP p ≤ 1) : deleteOne p l = l.filter (fun x => !p x) := by
  induction l with
  | nil => rfl
  | cons a l ih =>
    rw [List.countP_cons] at h
    by_cases ha : p a = true
    · rw [if_pos ha] at h
      have h0 : l.countP p = 0 := by omega
      have hall : ∀ x ∈ l, (!p x) = true := by
        intro x hx
        have := List.countP_eq_zero.mp h0 x hx
        simp [this]
      simp only [deleteOne, ha, if_true]
      rw [List.filter_cons]
      simp only [ha, Bool.not_true, Bool.false_eq_true, if_false]
      exact (List.filter_eq_self.mpr hall).symm
    · rw [if_neg ha] at h
      have ha' : p a = false := by simpa using ha
      simp only [deleteOne, ha', Bool.false_eq_true, if_false]
      rw [List.filter_cons]
      simp only [ha', Bool.not_false, if_true, List.cons.injEq, true_and]
      exact ih (by omega)

theorem find?_eq_some_of_countP_le_one {α : Type} (p : α → Bool) (l : List α) (a : α)
    (ha : a ∈ l) (hpa : p a = true) (h1 : l.countP p ≤ 1) : l.find? p = some a := by
  induction l with
  | nil => cases ha
  | cons b l ih =>
    rw [List.countP_cons] at h1
    rcases List.mem_cons.mp ha with rfl | hmem
    · exact List.find?_cons_of_pos _ hpa
    · by_cases hb : p b = true
      · exfalso
        have hpos : 0 < l.countP p := List.countP_pos_iff.mpr ⟨a, hmem, hpa⟩
        rw [if_pos hb] at h1
        omega
      · rw [if_neg hb] at h1
        have hb' : p b = false := by simpa using hb
        rw [List.find?_cons_of_neg _ (by simp [hb'])]
        exact ih hmem (by omega)

theorem countP_le_one_unique {α : Type} (p : α → Bool) (l : List α) (h : l.countP p ≤ 1)
    {a b : α} (ha : a ∈ l) (hb : b ∈ l) (hpa : p a = true) (hpb : p b = true) :
    a = b := by
  induction l with
  | nil => cases ha
  | cons c l ih =>
    rw [List.countP_cons] at h
    rcases List.mem_cons.mp ha with rfl | hma
    · rcases List.mem_cons.mp hb with rfl | hmb
      · rfl
      · exfalso
        have : 0 < l.countP p := List.countP_pos_iff.mpr ⟨b, hmb, hpb⟩
        rw [if_pos hpa] at h
        omega
    · rcases List.mem_cons.mp hb with rfl | hmb
      · exfalso
        have : 0 < l.countP p := List.countP_pos_iff.mpr ⟨a, hma, hpa⟩
        rw [if_pos hpb] at h
        omega
      · exact ih (Nat.le_trans (Nat.le_add_right _ _) h) hma hmb

/-- Claim C5 is false as stated: in a state where two administrator records
reference the organization, the owning administrator's Delete succeeds but
`delete_one` removes only the first of them — an administrator record
referencing the deleted organization's id survives, so *not every* such
record is removed. -/
theorem c5_counterexample :
    (delete_organization c5_state "Acme Corp" "boss@acme.com").2.2 = Except.ok ()
    ∧ (∃ o ∈ c5_state.organizations,
        o.organization_name_lower = sanitize_org_name "Acme Corp"
        ∧ o.admin_email = "boss@acme.com" ∧ o._id = MVal.str "o1")
    ∧ c5_second_admin ∈ c5_state.admins
    ∧ c5_second_admin.organization_id = MVal.str "o1"
    ∧ c5_second_admin ∈ (delete_organization c5_state "Acme Corp" "boss@acme.com").1.admins := by
  refine ⟨by decide, ?_, by decide, by decide, by decide⟩
  exact ⟨{ _id := .str "o1", organization_name := "Acme Corp",
           organization_name_lower := "acme_corp", admin_email := "boss@acme.com",
           created_at := 0 }, by decide, by decide, by decide, by decide⟩

/-- Claim C5 (amended): for every state in which an organization with
canonical name c exists (uniquely, and with a unique id — the canonical-name
uniqueness invariant and MongoDB's `_id` index), the caller's token email
equals its recorded administrator email, and *at most one* administrator
record references it (the single-admin-per-org invariant; the code's
`delete_one` removes at most one such record), Delete removes the
organization record and the administrator record referencing it — leaving no
administrator record referencing it — removes the tenant namespace for c
from the set of existing namespaces, keeps every other record and namespace,
and issues the two directory deletions before the namespace drop. -/
theorem c5_amended_delete_removes_directory_then_namespace
    (st : MasterState) (oname admin_email : String) (org : OrgDoc)
    (hmem : org ∈ st.organizations)
    (hcanon : org.organization_name_lower = sanitize_org_name oname)
    (hcuniq : st.organizations.countP
        (fun o => o.organization_name_lower == sanitize_org_name oname) ≤ 1)
    (hiduniq : st.organizations.countP (fun o => o._id == org._id) ≤ 1)
    (hauth : org.admin_email = admin_email)
    (hadm : st.admins.countP (fun a => a.organization_id == org._id) ≤ 1) :
    (delete_organization st oname admin_email).2.2 = Except.ok ()
    ∧ org ∉ (delete_organization st oname admin_email).1.organizations
    ∧ (∀ o ∈ st.organizations, o ≠ org →
        o ∈ (delete_organization st oname admin_email).1.organizations)
    ∧ (∀ a ∈ (delete_organization st oname admin_email).1.admins,
        a.organization_id ≠ org._id)
    ∧ (∀ a ∈ st.admins, a.organization_id ≠ org._id →
        a ∈ (delete_organization st oname admin_email).1.admins)
    ∧ (∀ t ∈ (delete_organization st oname admin_email).1.tenant_dbs,
        t.1 ≠ get_tenant_db_name (sanitize_org_name oname))
    ∧ (∀ t ∈ st.tenant_dbs, t.1 ≠ get_tenant_db_name (sanitize_org_name oname) →
        t ∈ (delete_organization st oname admin_email).1.tenant_dbs)
    ∧ (delete_organization st oname admin_email).2.1
      = [StoreEvent.deleteOrgRecord org._id, StoreEvent.deleteAdminRecords org._id,
         StoreEvent.dropTenantDb (get_tenant_db_name (sanitize_org_name oname))] := by
  have hfind : List.find?
      (fun o => o.organization_name_lower == sanitize_org_name oname)
      st.organizations = some org :=
    find?_eq_some_of_countP_le_one _ _ _ hmem (by simp [hcanon]) hcuniq
  simp only [delete_organization, findOne, hfind]
  rw [if_neg (by simp [hauth])]
  rw [deleteOne_eq_filter_of_countP_le_one _ _ hiduniq,
    deleteOne_eq_filter_of_countP_le_one _ _ hadm]
  refine ⟨rfl, ?_, ?_, ?_, ?_, ?_, ?_, rfl⟩
  · intro hcontra
    have := (List.mem_filter.mp hcontra).2
    simp at this
  · intro o ho hne
    refine List.mem_filter.mpr ⟨ho, ?_⟩
    have hid : (o._id == org._id) = false := by
      by_cases hcase : (o._id == org._id) = true
      · exact absurd (countP_le_one_unique _ _ hiduniq ho hmem hcase (by simp)) hne
      · simpa using hcase
    simp [hid]
  · intro a hain
    have := (List.mem_filter.mp hain).2
    simpa using this
  · intro a hain hne
    exact List.mem_filter.mpr ⟨hain, by simpa using hne⟩
  · intro t htin
    have := (List.mem_filter.mp htin).2
    simpa [drop_database] using this
  · intro t htin hne
    exact List.mem_filter.mpr ⟨htin, by simpa using hne⟩

theorem c5_amended_delete_witness :
    c5w_org ∈ c5w_state.organizations
    ∧ c5w_org.organization_name_lower = sanitize_org_name "Acme Corp"
    ∧ c5w_state.organizations.countP
        (fun o => o.organization_name_lower == sanitize_org_name "Acme Corp") ≤ 1
    ∧ c5w_state.organizations.countP (fun o => o._id == c5w_org._id) ≤ 1
    ∧ c5w_org.admin_email = "boss@acme.com"
    ∧ c5w_state.admins.countP (fun a => a.organization_id == c5w_org._id) ≤ 1
    ∧ ((delete_organization c5w_state "Acme Corp" "boss@acme.com").2.2 = Except.ok ()
      ∧ c5w_org ∉ (delete_organization c5w_state "Acme Corp" "boss@acme.com").1.organizations
      ∧ (∀ o ∈ c5w_state.organizations, o ≠ c5w_org →
          o ∈ (delete_organization c5w_state "Acme Corp" "boss@acme.com").1.organizations)
      ∧ (∀ a ∈ (delete_organization c5w_state "Acme Corp" "boss@acme.com").1.admins,
          a.organization_id ≠ c5w_org._id)
      ∧ (∀ a ∈ c5w_state.admins, a.organization_id ≠ c5w_org._id →
          a ∈ (delete_organization c5w_state "Acme Corp" "boss@acme.com").1.admins)
      ∧ (∀ t ∈ (delete_organization c5w_state "Acme Corp" "boss@acme.com").1.tenant_dbs,
          t.1 ≠ get_tenant_db_name (sanitize_org_name "Acme Corp"))
      ∧ (∀ t ∈ c5w_state.tenant_dbs,
          t.1 ≠ get_tenant_db_name (sanitize_org_name "Acme Corp") →
          t ∈ (delete_organization c5w_state "Acme Corp" "boss@acme.com").1.tenant_dbs)
      ∧ (delete_organization c5w_state "Acme Corp" "boss@acme.com").2.1
        = [StoreEvent.deleteOrgRecord c5w_org._id,
           StoreEvent.deleteAdminRecords c5w_org._id,
           StoreEvent.dropTenantDb (get_tenant_db_name (sanitize_org_name "Acme Corp"))]) :=
  ⟨by decide, by decide, by decide, by decide, rfl, by decide,
    c5_amended_delete_removes_directory_then_namespace c5w_state "Acme Corp"
      "boss@acme.com" c5w_org (by decide) (by decide) (by decide) (by decide) rfl
      (by decide)⟩

/-! ## Claim theorems: create rollback frame (C8) and create after create (C10) -/

/-- Claim C8 is right about the intended rollback but the code contradicts
it (code bug): from `c8_state`, Create of `c8_request` fails after its first
directory write (the administrator insert hits the `_id` unique index), and
the compensating deletes then (i) remove a *different* organization's
administrator record — the first `admins` document with the request's email,
here `c8_other_admin` of organization `"a1"` — and (ii) fail to remove the
organization record this very invocation wrote, because the rollback queries
`_id` by the *stringified* inserted id `"None"` while the written document's
`_id` is `null`.  The tenant namespace is indeed not dropped. -/
theorem c8_code_bug_rollback_deletes_other_orgs_admin :
    (create_organization c8_state c8_request 5).2 = Except.error ApiError.serverError
    ∧ c8_other_admin ∈ c8_state.admins
    ∧ c8_other_admin.organization_id = MVal.str "a1"
    ∧ (create_organization c8_state c8_request 5).1.admins = []
    ∧ (create_organization c8_state c8_request 5).1.organizations
      = c8_state.organizations ++
        [{ _id := .null, organization_name := "Beta LLC",
           organization_name_lower := "beta_llc", admin_email := "shared@example.com",
           created_at := 5 }]
    ∧ (create_organization c8_state c8_request 5).1.tenant_dbs = c8_state.tenant_dbs := by
  decide

/-- Claim C10 is right about the intended behaviour but the code contradicts
it (code bug): the first Create on an empty store succeeds, after which a
later unrelated Create — fresh, distinct, non-empty canonical name, passing
input validation — fails with a 500 instead of succeeding: both inserts
carry the explicit `_id = null` of `model_dump(by_alias=True)`, so the
second organization insert hits MongoDB's `_id` unique index.  (The repo's
own test `test_delete_organization` expects the second Create to return
201.) -/
theorem c10_code_bug_second_create_fails :
    (create_organization { organizations := [], admins := [], tenant_dbs := [] }
        c10_first_request 0).2
      = Except.ok { organization_name := "Acme Corp", admin_email := "boss@acme.com",
                    created_at := 0 }
    ∧ valid_org_create c10_second_request = true
    ∧ sanitize_org_name c10_second_request.organization_name = "beta_llc"
    ∧ (∀ o ∈ c10_state_after_first.organizations,
        o.organization_name_lower ≠ sanitize_org_name c10_second_request.organization_name)
    ∧ c10_state_after_first.organizations ≠ []
    ∧ (create_organization c10_state_after_first c10_second_request 1).2
      = Except.error ApiError.serverError := by
  decide

/-! ## Claim theorems: migrator idempotence (C9) -/

theorem copy_documents_extends (bs : Nat) :
    ∀ (src dst batch : List MDoc) (copied skipped : Nat),
    ∃ ext skipped2,
      copy_documents bs src dst batch copied skipped
        = (dst ++ ext, copied + ext.length, skipped2) := by
  intro src
  induction src with
  | nil =>
    intro dst batch copied skipped
    by_cases hb : batch.isEmpty = true
    · have : batch = [] := List.isEmpty_iff.mp hb
      subst this
      exact ⟨[], skipped, by simp [copy_documents]⟩
    · refine ⟨batch, skipped, ?_⟩
      simp only [copy_documents]
      rw [if_neg hb]
  | cons d rest ih =>
    intro dst batch copied skipped
    simp only [copy_documents]
    by_cases hskip : (dst.any (fun x => x._id == d._id)) = true
    · rw [if_pos hskip]
      exact ih dst batch copied (skipped + 1)
    · rw [if_neg hskip]
      by_cases hflush : bs ≤ (batch ++ [d]).length
      · rw [if_pos hflush]
        obtain ⟨ext2, s2, h2⟩ :=
          ih (dst ++ (batch ++ [d])) [] (copied + (batch ++ [d]).length) skipped
        refine ⟨(batch ++ [d]) ++ ext2, s2, ?_⟩
        rw [h2]
        have hA : dst ++ (batch ++ [d]) ++ ext2 = dst ++ ((batch ++ [d]) ++ ext2) := by
          simp [List.append_assoc]
        have hB : copied + (batch ++ [d]).length + ext2.length
            = copied + ((batch ++ [d]) ++ ext2).length := by
          simp only [List.length_append]
          omega
        rw [hA, hB]
      · rw [if_neg hflush]
        exact ih dst (batch ++ [d]) copied skipped

theorem copy_documents_covers (bs : Nat) :
    ∀ (src dst batch : List MDoc) (copied skipped : Nat),
      (∀ x ∈ dst ++ batch, x ∈ (copy_documents bs src dst batch copied skipped).1)
      ∧ (∀ d ∈ src,
          ∃ x ∈ (copy_documents bs src dst batch copied skipped).1, x._id = d._id) := by
  intro src
  induction src with
  | nil =>
    intro dst batch copied skipped
    refine ⟨?_, fun d hd => by cases hd⟩
    intro x hx
    by_cases hb : batch.isEmpty = true
    · have hbe : batch = [] := List.isEmpty_iff.mp hb
      subst hbe
      simpa [copy_documents] using hx
    · simp only [copy_documents]
      rw [if_neg hb]
      exact hx
  | cons d rest ih =>
    intro dst batch copied skipped
    simp only [copy_documents]
    by_cases hskip : (dst.any (fun x => x._id == d._id)) = true
    · rw [if_pos hskip]
      obtain ⟨hmono, hcov⟩ := ih dst batch copied (skipped + 1)
      refine ⟨hmono, ?_⟩
      intro e he
      rcases List.mem_cons.mp he with heq | hmem
      · subst heq
        obtain ⟨x, hxdst, hxid⟩ := List.any_eq_true.mp hskip
        exact ⟨x, hmono x (List.mem_append_left _ hxdst), by simpa using hxid⟩
      · exact hcov e hmem
    · rw [if_neg hskip]
      by_cases hflush : bs ≤ (batch ++ [d]).length
      · rw [if_pos hflush]
        obtain ⟨hmono, hcov⟩ :=
          ih (dst ++ (batch ++ [d])) [] (copied + (batch ++ [d]).length) skipped
        have hmono' : ∀ x ∈ dst ++ (batch ++ [d]),
            x ∈ (copy_documents bs rest (dst ++ (batch ++ [d])) []
              (copied + (batch ++ [d]).length) skipped).1 := by
          intro x hx
          exact hmono x (by simpa using hx)
        refine ⟨?_, ?_⟩
        · intro x hx
          refine hmono' x ?_
          rcases List.mem_append.mp hx with h | h
          · exact List.mem_append_left _ h
          · exact List.mem_append_right _ (List.mem_append_left _ h)
        · intro e he
          rcases List.mem_cons.mp he with heq | hmem
          · subst heq
            exact ⟨e, hmono' e (by simp), rfl⟩
          · exact hcov e hmem
      · rw [if_neg hflush]
        obtain ⟨hmono, hcov⟩ := ih dst (batch ++ [d]) copied skipped
        have hmono' : ∀ x ∈ dst ++ (batch ++ [d]),
            x ∈ (copy_documents bs rest dst (batch ++ [d]) copied skipped).1 := hmono
        refine ⟨?_, ?_⟩
        · intro x hx
          refine hmono' x ?_
          rcases List.mem_append.mp hx with h | h
          · exact List.mem_append_left _ h
          · exact List.mem_append_right _ (List.mem_append_left _ h)
        · intro e he
          rcases List.mem_cons.mp he with heq | hmem
          · subst heq
            exact ⟨e, hmono' e (by simp), rfl⟩
          · exact hcov e hmem

theorem copy_documents_skips_all (bs : Nat) :
    ∀ (src dst : List MDoc) (copied skipped : Nat),
      (∀ d ∈ src, ∃ x ∈ dst, x._id = d._id) →
      copy_documents bs src dst [] copied skipped = (dst, copied, skipped + src.length) := by
  intro src
  induction src with
  | nil =>
    intro dst copied skipped _
    simp [copy_documents]
  | cons d rest ih =>
    intro dst copied skipped hcov
    obtain ⟨x, hxmem, hxid⟩ := hcov d (List.mem_cons_self d rest)
    have hany : (dst.any (fun y => y._id == d._id)) = true :=
      List.any_eq_true.mpr ⟨x, hxmem, by simpa using hxid⟩
    simp only [copy_documents]
    rw [if_pos hany, ih dst copied (skipped + 1) (fun e he => hcov e (List.mem_cons_of_mem d he))]
    simp only [Prod.mk.injEq, List.length_cons, true_and]
    omega

theorem find?_assocWrite_other {β : Type} (l : List (String × β)) (n m : String) (v : β)
    (h : (m == n) = false) :
    (assocWrite l n v).find? (fun e => e.1 == m) = l.find? (fun e => e.1 == m) := by
  have hmn : m ≠ n := by simpa using h
  have hnm : ¬ (((n, v) : String × β).1 == m) = true := by
    simp only [beq_iff_eq]
    exact fun he => hmn he.symm
  induction l with
  | nil =>
    simp only [assocWrite]
    rw [@List.find?_cons_of_neg _ (fun e => e.1 == m) (n, v) [] hnm]
  | cons e es ih =>
    simp only [assocWrite]
    by_cases he : (e.1 == n) = true
    · rw [if_pos he]
      have hem : ¬ (e.1 == m) = true := by
        simp only [beq_iff_eq] at he ⊢
        rw [he]
        exact fun hx => hmn hx.symm
      rw [@List.find?_cons_of_neg _ (fun e => e.1 == m) (n, v) es hnm,
        @List.find?_cons_of_neg _ (fun e => e.1 == m) e es hem]
    · rw [if_neg he]
      by_cases hem : (e.1 == m) = true
      · rw [@List.find?_cons_of_pos _ (fun e => e.1 == m) e (assocWrite es n v) hem,
          @List.find?_cons_of_pos _ (fun e => e.1 == m) e es hem]
      · rw [@List.find?_cons_of_neg _ (fun e => e.1 == m) e (assocWrite es n v) hem,
          @List.find?_cons_of_neg _ (fun e => e.1 == m) e es hem]
        exact ih

theorem assocFind_write_same {β : Type} (l : List (String × β)) (n : String)
    (v dflt : β) : assocFind (assocWrite l n v) n dflt = v := by
  induction l with
  | nil => simp [assocWrite, assocFind, List.find?]
  | cons e es ih =>
    simp only [assocWrite]
    by_cases he : (e.1 == n) = true
    · rw [if_pos he]
      simp [assocFind, List.find?]
    · rw [if_neg he]
      simp only [assocFind] at ih ⊢
      rw [@List.find?_cons_of_neg _ (fun e => e.1 == n) e (assocWrite es n v) he]
      exact ih

theorem assocFind_write_other {β : Type} (l : List (String × β)) (n m : String)
    (v dflt : β) (h : (m == n) = false) :
    assocFind (assocWrite l n v) m dflt = assocFind l m dflt := by
  simp only [assocFind, find?_assocWrite_other l n m v h]

theorem migrate_collections_copied_le (bs : Nat) (old_db : MigDb) :
    ∀ (names : List String) (new_db : MigDb) (copied : Nat),
      copied ≤ (migrate_collections bs old_db names new_db copied).2 := by
  intro names
  induction names with
  | nil =>
    intro new_db copied
    simp [migrate_collections]
  | cons n rest ih =>
    intro new_db copied
    simp only [migrate_collections]
    exact Nat.le_trans (Nat.le_add_right _ _) (ih _ _)

theorem migrate_collections_zero_copied (bs : Nat) (old_db : MigDb) :
    ∀ (names : List String) (new_db : MigDb) (copied : Nat),
      (migrate_collections bs old_db names new_db copied).2 = copied →
      (migrate_collections bs old_db names new_db copied).1 = new_db := by
  intro names
  induction names with
  | nil =>
    intro new_db copied _
    rfl
  | cons n rest ih =>
    intro new_db copied h
    rcases hres : copy_documents bs (assocFind old_db n []) (assocFind new_db n []) [] 0 0
      with ⟨dst2, c2, s2⟩
    simp only [migrate_collections, hres] at h ⊢
    have hle := migrate_collections_copied_le bs old_db rest
      (if (c2 == 0) = true then new_db else assocWrite new_db n dst2) (copied + c2)
    have hz : c2 = 0 := by omega
    subst hz
    simp only [beq_self_eq_true, if_true, Nat.add_zero] at h ⊢
    exact ih new_db copied h

theorem migrate_collections_covers (bs : Nat) (old_db : MigDb) :
    ∀ (names : List String) (new_db : MigDb) (copied : Nat),
      (∀ (m : String) (x : MDoc), x ∈ assocFind new_db m [] →
        x ∈ assocFind (migrate_collections bs old_db names new_db copied).1 m [])
      ∧ (∀ n ∈ names, ∀ d ∈ assocFind old_db n [],
          ∃ x ∈ assocFind (migrate_collections bs old_db names new_db copied).1 n [],
            x._id = d._id) := by
  intro names
  induction names with
  | nil =>
    intro new_db copied
    exact ⟨fun m x hx => hx, fun n hn => absurd hn (List.not_mem_nil n)⟩
  | cons n rest ih =>
    intro new_db copied
    rcases hres : copy_documents bs (assocFind old_db n []) (assocFind new_db n []) [] 0 0
      with ⟨dst2, c2, s2⟩
    obtain ⟨ext, s2', hext⟩ :=
      copy_documents_extends bs (assocFind old_db n []) (assocFind new_db n []) [] 0 0
    rw [hres] at hext
    have hdst2 : dst2 = assocFind new_db n [] ++ ext := congrArg Prod.fst hext
    have hc2 : c2 = ext.length := by
      have := congrArg (fun p => p.2.1) hext
      simpa using this
    have hcover := (copy_documents_covers bs (assocFind old_db n [])
      (assocFind new_db n []) [] 0 0).2
    rw [hres] at hcover
    have hfind' : assocFind
        (if (c2 == 0) = true then new_db else assocWrite new_db n dst2) n [] = dst2 := by
      by_cases hc : (c2 == 0) = true
      · rw [if_pos hc]
        have hext0 : ext = [] := by
          have h0 : c2 = 0 := by simpa using hc
          have : ext.length = 0 := by omega
          exact List.length_eq_zero.mp this
        rw [hdst2, hext0, List.append_nil]
      · rw [if_neg hc]
        exact assocFind_write_same new_db n dst2 []
    have hmono1 : ∀ (m : String) (x : MDoc), x ∈ assocFind new_db m [] →
        x ∈ assocFind
          (if (c2 == 0) = true then new_db else assocWrite new_db n dst2) m [] := by
      intro m x hx
      by_cases hm : (m == n) = true
      · have hmn : m = n := by simpa using hm
        subst hmn
        rw [hfind']
        rw [hdst2]
        exact List.mem_append_left _ hx
      · by_cases hc : (c2 == 0) = true
        · rw [if_pos hc]
          exact hx
        · rw [if_neg hc]
          rw [assocFind_write_other new_db n m dst2 [] (by simpa using hm)]
          exact hx
    obtain ⟨ihmono, ihcov⟩ :=
      ih (if (c2 == 0) = true then new_db else assocWrite new_db n dst2) (copied + c2)
    simp only [migrate_collections, hres]
    refine ⟨?_, ?_⟩
    · intro m x hx
      exact ihmono m x (hmono1 m x hx)
    · intro n' hn' d hd
      rcases List.mem_cons.mp hn' with heq | hmem
      · subst heq
        obtain ⟨x, hxmem, hxid⟩ := hcover d hd
        refine ⟨x, ?_, hxid⟩
        apply ihmono
        rw [hfind']
        exact hxmem
      · exact ihcov n' hmem d hd

theorem migrate_collections_noop (bs : Nat) (old_db : MigDb) :
    ∀ (names : List String) (new_db : MigDb) (copied : Nat),
      (∀ n ∈ names, ∀ d ∈ assocFind old_db n [],
        ∃ x ∈ assocFind new_db n [], x._id = d._id) →
      migrate_collections bs old_db names new_db copied = (new_db, copied) := by
  intro names
  induction names with
  | nil =>
    intro new_db copied _
    rfl
  | cons n rest ih =>
    intro new_db copied hcov
    have hskip := copy_documents_skips_all bs (assocFind old_db n [])
      (assocFind new_db n []) 0 0 (hcov n (List.mem_cons_self n rest))
    simp only [migrate_collections, hskip, beq_self_eq_true, if_true, Nat.add_zero]
    exact ih new_db copied (fun n' hn' => hcov n' (List.mem_cons_of_mem n hn'))

theorem string_append_left_cancel {p a b : String} (h : p ++ a = p ++ b) : a = b := by
  have hd := congrArg String.data h
  simp only [String.data_append] at hd
  exact String.ext (List.append_cancel_left hd)

/-- Claim C9: running `migrate` twice with the same old name, new name and
batch size (no concurrent writes — the cluster evolves only through the two
runs) converges: the second run copies zero documents and changes nothing
(every source document's `_id` already exists in the destination collection
and is skipped), and neither run deletes or modifies any record of the
source namespace `org_<sanitize(old)>`. -/
theorem c9_migrate_twice_idempotent (cl : MigCluster) (old_org new_org : String)
    (bs : Nat) :
    (migrate_org_name (migrate_org_name cl old_org new_org bs).1 old_org new_org bs).2 = 0
    ∧ (migrate_org_name (migrate_org_name cl old_org new_org bs).1 old_org new_org bs).1
      = (migrate_org_name cl old_org new_org bs).1
    ∧ assocFind (migrate_org_name cl old_org new_org bs).1 (migrate_old_db_name old_org) []
      = assocFind cl (migrate_old_db_name old_org) []
    ∧ assocFind
        (migrate_org_name (migrate_org_name cl old_org new_org bs).1 old_org new_org bs).1
        (migrate_old_db_name old_org) []
      = assocFind cl (migrate_old_db_name old_org) [] := by
  by_cases heq : (sanitize_name old_org == sanitize_name new_org) = true
  · have hrun : migrate_org_name cl old_org new_org bs = (cl, 0) := by
      simp only [migrate_org_name]
      rw [if_pos heq]
    rw [hrun]
    dsimp only
    rw [hrun]
    exact ⟨rfl, rfl, rfl, rfl⟩
  · have hnames : ("org_" ++ sanitize_name old_org) ≠ ("org_" ++ sanitize_name new_org) := by
      intro hcontra
      exact heq (by simp [string_append_left_cancel hcontra])
    by_cases habs :
        ((cl.find? (fun d => d.1 == "org_" ++ sanitize_name old_org)).isNone) = true
    · have hrun : migrate_org_name cl old_org new_org bs = (cl, 0) := by
        simp only [migrate_org_name]
        rw [if_neg heq, if_pos habs]
      rw [hrun]
      dsimp only
      rw [hrun]
      exact ⟨rfl, rfl, rfl, rfl⟩
    · rcases hmc : migrate_collections bs
          (assocFind cl ("org_" ++ sanitize_name old_org) [])
          ((assocFind cl ("org_" ++ sanitize_name old_org) []).map (fun c => c.1))
          (assocFind cl ("org_" ++ sanitize_name new_org) []) 0 with ⟨db2, c1⟩
      have hrun1 : migrate_org_name cl old_org new_org bs
          = if (c1 == 0) = true then (cl, 0)
            else (assocWrite cl ("org_" ++ sanitize_name new_org) db2, c1) := by
        simp only [migrate_org_name]
        rw [if_neg heq, if_neg habs, hmc]
      by_cases hz : (c1 == 0) = true
      · have hrun : migrate_org_name cl old_org new_org bs = (cl, 0) := by
          rw [hrun1, if_pos hz]
        rw [hrun]
        dsimp only
        rw [hrun]
        exact ⟨rfl, rfl, rfl, rfl⟩
      · have hrun : migrate_org_name cl old_org new_org bs
            = (assocWrite cl ("org_" ++ sanitize_name new_org) db2, c1) := by
          rw [hrun1, if_neg hz]
        have hbeqON : (("org_" ++ sanitize_name old_org)
            == ("org_" ++ sanitize_name new_org)) = false := by
          simpa using hnames
        have hsrc : assocFind (assocWrite cl ("org_" ++ sanitize_name new_org) db2)
            ("org_" ++ sanitize_name old_org) []
            = assocFind cl ("org_" ++ sanitize_name old_org) [] :=
          assocFind_write_other cl ("org_" ++ sanitize_name new_org)
            ("org_" ++ sanitize_name old_org) db2 [] hbeqON
        have habs2 : ((assocWrite cl ("org_" ++ sanitize_name new_org) db2).find?
              (fun d => d.1 == "org_" ++ sanitize_name old_org)).isNone
            = ((cl.find? (fun d => d.1 == "org_" ++ sanitize_name old_org)).isNone) := by
          rw [find?_assocWrite_other cl ("org_" ++ sanitize_name new_org)
            ("org_" ++ sanitize_name old_org) db2 hbeqON]
        have hnew2 : assocFind (assocWrite cl ("org_" ++ sanitize_name new_org) db2)
            ("org_" ++ sanitize_name new_org) [] = db2 :=
          assocFind_write_same cl ("org_" ++ sanitize_name new_org) db2 []
        have hcover := (migrate_collections_covers bs
          (assocFind cl ("org_" ++ sanitize_name old_org) [])
          ((assocFind cl ("org_" ++ sanitize_name old_org) []).map (fun c => c.1))
          (assocFind cl ("org_" ++ sanitize_name new_org) []) 0).2
      -- coverage of the final destination of run 1
        rw [hmc] at hcover
        dsimp only at hcover
        have hnoop := migrate_collections_noop bs
          (assocFind cl ("org_" ++ sanitize_name old_org) [])
          ((assocFind cl ("org_" ++ sanitize_name old_org) []).map (fun c => c.1))
          db2 0 hcover
        have hrun2 : migrate_org_name
            (assocWrite cl ("org_" ++ sanitize_name new_org) db2) old_org new_org bs
            = (assocWrite cl ("org_" ++ sanitize_name new_org) db2, 0) := by
          simp only [migrate_org_name]
          rw [if_neg heq, habs2, if_neg habs, hsrc, hnew2, hnoop]
          dsimp only
          rw [if_pos (beq_self_eq_true 0)]
        rw [hrun]
        dsimp only
        rw [hrun2]
        exact ⟨rfl, rfl, hsrc, hsrc⟩
